import Mathlib

/-!
Verification of the smart-invoice-validator core: the extraction
normalization pipeline (`backend/app/models/document_models.py`) and the
contract–invoice reconciliation engine
(`backend/app/services/document_processor.py`,
`compare_invoice_with_contract_async`).

Python floats are modelled as rationals (`ℚ`); Python dict values are
modelled by the `Value` type below (`none` also stands for an absent key
wherever the source reads the key with `dict.get`, which collapses the two
cases).  Fallible Python operations (`float(...)` on a bad string,
`.lower()` on a non-string) are modelled in `Except String`.
-/

set_option autoImplicit false

namespace SIV

/-- Decidable equality for `Except`, used to evaluate the engine on
concrete inputs. -/
instance {e a : Type} [DecidableEq e] [DecidableEq a] : DecidableEq (Except e a) := fun x y =>
  match x, y with
  | .ok v, .ok w =>
    if h : v = w then isTrue (by rw [h]) else isFalse (fun hc => h (Except.ok.injEq .. ▸ hc))
  | .error v, .error w =>
    if h : v = w then isTrue (by rw [h]) else isFalse (fun hc => h (Except.error.injEq .. ▸ hc))
  | .ok _, .error _ => isFalse (fun hc => Except.noConfusion hc)
  | .error _, .ok _ => isFalse (fun hc => Except.noConfusion hc)

/-- A loosely-typed Python value as it appears in the extraction payloads:
`None`, a number (int/float, modelled as `ℚ`), or a string. -/
inductive Value where
  | none
  | num (q : ℚ)
  | str (s : String)
  deriving DecidableEq, Repr

/-- Python truthiness of a `Value` (`bool(v)`). -/
def pyTruthy : Value → Bool
  | .none => false
  | .num q => q != 0
  | .str s => s != ""

/-- Python `str.lower()` applied to a `Value`: raises `AttributeError`
unless the value is a string. ASCII lowering models `str.lower`. -/
def pyLower : Value → Except String String
  | .str s => .ok (String.mk (s.data.map Char.toLower))
  | _ => .error "AttributeError: object has no attribute lower"

/-- One character of a decimal literal. -/
def digitVal (c : Char) : ℕ := c.toNat - '0'.toNat

/-- Parse a run of decimal digits into (value, number of digits). -/
def parseDigits : List Char → ℕ × ℕ
  | [] => (0, 0)
  | c :: cs =>
    let (v, n) := parseDigits cs
    (digitVal c * 10 ^ n + v, n + 1)

/-- All characters are decimal digits. -/
def allDigits (l : List Char) : Bool := l.all Char.isDigit

/-- Split a character list at the first occurrence of `sep`. -/
def splitAtChar (sep : Char) : List Char → List Char × Option (List Char)
  | [] => ([], Option.none)
  | c :: cs =>
    if c = sep then ([], some cs)
    else
      let (pre, post) := splitAtChar sep cs
      (c :: pre, post)

/-- Parse the mantissa of a decimal literal: digits, an optional dot, and
more digits, requiring at least one digit in total. -/
def parseMantissa (l : List Char) : Option ℚ :=
  let (intPart, fracPart) := splitAtChar '.' l
  match fracPart with
  | Option.none =>
    if allDigits intPart ∧ intPart ≠ [] then
      some ((parseDigits intPart).1 : ℚ)
    else Option.none
  | some frac =>
    if allDigits intPart ∧ allDigits frac ∧ (intPart ≠ [] ∨ frac ≠ []) then
      let (iv, _) := parseDigits intPart
      let (fv, fn) := parseDigits frac
      some ((iv : ℚ) + (fv : ℚ) / (10 ^ fn : ℚ))
    else Option.none

/-- Parse an optional exponent part (after `e`/`E`). -/
def applyExponent (mant : ℚ) (l : List Char) : Option ℚ :=
  match l with
  | '+' :: ds =>
    if allDigits ds ∧ ds ≠ [] then some (mant * 10 ^ (parseDigits ds).1) else Option.none
  | '-' :: ds =>
    if allDigits ds ∧ ds ≠ [] then some (mant / 10 ^ (parseDigits ds).1) else Option.none
  | ds =>
    if allDigits ds ∧ ds ≠ [] then some (mant * 10 ^ (parseDigits ds).1) else Option.none

/-- Split a character list at the first `e`/`E`, if any. -/
def splitExp : List Char → List Char × Option (List Char)
  | [] => ([], Option.none)
  | c :: cs =>
    if c = 'e' ∨ c = 'E' then ([], some cs)
    else
      let (pre, post) := splitExp cs
      (c :: pre, post)

/-- Model of Python `float(s)` on a string: optional surrounding
whitespace, optional sign, decimal mantissa, optional exponent.
Returns `none` when the string cannot be parsed (`ValueError`). -/
def parseFloat (s : String) : Option ℚ :=
  let chars := (s.data.dropWhile Char.isWhitespace).reverse.dropWhile Char.isWhitespace |>.reverse
  let (sign, rest) : ℚ × List Char :=
    match chars with
    | '-' :: cs => (-1, cs)
    | '+' :: cs => (1, cs)
    | cs => (1, cs)
  let (mantChars, expChars) := splitExp rest
  match parseMantissa mantChars with
  | Option.none => Option.none
  | some m =>
    match expChars with
    | Option.none => some (sign * m)
    | some ec =>
      match applyExponent m ec with
      | some r => some (sign * r)
      | Option.none => Option.none

/-- Model of Python `float(v)` on a loosely-typed value: numbers pass
through, strings are parsed (`ValueError` on failure), `None` raises
`TypeError`. -/
def pyFloat : Value → Except String ℚ
  | .num q => .ok q
  | .str s =>
    match parseFloat s with
    | some q => .ok q
    | Option.none => .error (String.append "could not convert string to float: " s)
  | .none => .error "TypeError: float() argument must be a string or a real number, not NoneType"

/-- Split a character list on whitespace runs, dropping empty pieces
(Python `str.split()`). -/
def splitWsChars : List Char → List (List Char)
  | [] => []
  | c :: cs =>
    if c.isWhitespace then splitWsChars cs
    else
      match cs with
      | [] => [[c]]
      | d :: _ =>
        if d.isWhitespace then [c] :: splitWsChars cs
        else
          match splitWsChars cs with
          | [] => [[c]]
          | w :: ws => (c :: w) :: ws

/-- Python `str.split()`: split on whitespace runs, no empty words. -/
def pySplit (s : String) : List String := (splitWsChars s.data).map String.mk

/-- `" ".join(s.split())` — the whitespace normalization the engine applies
to every service description. -/
def normWs (s : String) : String := String.intercalate " " (pySplit s)

/-- ASCII model of Python `str.lower()` on a string. -/
def lowerStr (s : String) : String := String.mk (s.data.map Char.toLower)

/-- Boolean prefix test on character lists. -/
def isPrefixCh : List Char → List Char → Bool
  | [], _ => true
  | _ :: _, [] => false
  | a :: as, b :: bs => a == b && isPrefixCh as bs

/-- Boolean infix test on character lists. -/
def isInfixCh (needle : List Char) : List Char → Bool
  | [] => isPrefixCh needle []
  | b :: bs => isPrefixCh needle (b :: bs) || isInfixCh needle bs

/-- Python `a in b` on strings (substring containment). -/
def isSubstringOf (needle hay : String) : Bool := isInfixCh needle.data hay.data

/-- Python `set(s.split())`: the distinct words of a description. -/
def wordsOf (s : String) : List String := (pySplit s).dedup

/-- Size of the intersection of two word sets (both lists deduplicated). -/
def interCount (a b : List String) : ℕ := (a.filter (fun w => w ∈ b)).length

/-! ### Reconciliation engine data model
(`compare_invoice_with_contract_async`, document_processor.py lines 710-939) -/

/-- A raw entry of `contract.services`: either skipped by the engine
(not a dict, or no `"service_name"` key, line 756) or a dict carrying the
`service_name` and `unit_price` values. -/
inductive RawService where
  | skip
  | mk (service_name : Value) (unit_price : Value)
  deriving DecidableEq, Repr

/-- The `Contract` argument: an id and the `services` list. -/
structure Contract where
  id : String
  services : List RawService
  deriving DecidableEq, Repr

/-- A raw entry of `invoice_data["items"]`: either not a dict (skipped at
line 784) or a dict whose `description`, `unit_price` and `total_price`
keys are read with `.get` (absent keys read as `Value.none`). -/
inductive RawItem where
  | notDict
  | mk (description : Value) (unit_price : Value) (total_price : Value)
  deriving DecidableEq, Repr

/-- The `invoice_data` dict: the `items` key (present with a list, or
absent), the `total` key, and whether any other key is present (which only
matters for the Python emptiness test `not invoice_data`). -/
structure InvoiceData where
  itemsKey : Option (List RawItem)
  totalKey : Option Value
  otherKeys : Bool
  deriving DecidableEq, Repr

/-- `not invoice_data`: the dict has no keys at all. -/
def InvoiceData.isEmptyDict (d : InvoiceData) : Bool :=
  d.itemsKey.isNone && d.totalKey.isNone && !d.otherKeys

/-- `invoice_data.get("total")`. -/
def InvoiceData.getTotal (d : InvoiceData) : Value := d.totalKey.getD Value.none

/-- The value stored in the `contract_services` dict for each normalized
service name: the original (un-lowered) name and the coerced unit price. -/
structure SvcData where
  original_name : String
  price : ℚ
  deriving DecidableEq, Repr

/-- Insert into an association list with Python-dict update semantics:
an existing key keeps its position and gets the new value, a new key is
appended. -/
def insertOrReplace (l : List (String × SvcData)) (k : String) (v : SvcData) :
    List (String × SvcData) :=
  if l.any (fun p => p.1 == k) then
    l.map (fun p => if p.1 == k then (k, v) else p)
  else l ++ [(k, v)]

/-- Build the `contract_services` dict (lines 753-769): skip non-dict
services, lower-case and whitespace-normalize the name, coerce the unit
price with `float` (absent/None price reads as `0.0`).  `.lower()` on a
non-string name and `float` on a bad price string raise, escaping to the
engine's top-level handler. -/
def buildServices (l : List RawService) : Except String (List (String × SvcData)) :=
  l.foldlM
    (fun acc s =>
      match s with
      | .skip => .ok acc
      | .mk nameV upV =>
        match nameV with
        | .str name => do
          let norm := normWs (lowerStr name)
          let price ← match upV with
            | .none => .ok (0 : ℚ)
            | v => pyFloat v
          pure (insertOrReplace acc norm ⟨name, price⟩)
        | _ => .error "AttributeError: object has no attribute lower")
    []

/-- The three-tier line-item matcher (lines 808-840): exact dict lookup,
then first substring hit, then first word-overlap hit.  Returns the
normalized contract name together with its stored data. -/
def findMatch (svcs : List (String × SvcData)) (snorm : String) :
    Option (String × SvcData) :=
  match svcs.find? (fun p => p.1 == snorm) with
  | some p => some p
  | Option.none =>
    match svcs.find? (fun p => isSubstringOf snorm p.1 || isSubstringOf p.1 snorm) with
    | some p => some p
    | Option.none =>
      let serviceWords := wordsOf snorm
      svcs.find? (fun p =>
        let commonCount := interCount serviceWords (wordsOf p.1)
        commonCount ≥ 2 ||
          (commonCount > 0 &&
            decide ((commonCount : ℚ) / (serviceWords.length : ℚ) ≥ (1 : ℚ) / 2)))

/-- Python `abs` on a rational. -/
def pyAbs (q : ℚ) : ℚ := if q < 0 then -q else q

/-- The price comparison of step 4c (lines 861-865): absolute tolerance
`0.01`, plus the two zero/negative sign-quirk cases. -/
def priceMatch (ip cp : ℚ) : Bool :=
  decide (pyAbs (ip - cp) ≤ 1 / 100) ||
    (ip == 0 && decide (cp < 0)) ||
    (cp == 0 && decide (ip < 0))

/-- A typed issue record, tagged by the `"type"` key used in the source. -/
inductive Issue where
  | contract_invalid (detail : String)
  | invoice_invalid (detail : String)
  | service_not_in_contract (service_name : String)
  | price_mismatch (service_name : String) (contract_value invoice_value : ℚ)
  | comparison_error (detail : String)
  deriving DecidableEq, Repr

/-- One entry of `price_comparison_details` (`match` is `matched` here). -/
structure Detail where
  service_name : String
  contract_price : Option ℚ
  invoice_price : ℚ
  matched : Bool
  note : Option String
  deriving DecidableEq, Repr

/-- The engine's running state: the two aggregate flags and the two
accumulated lists (`matches["all_services_in_contract"]`,
`all_prices_match`, `issues`, `price_comparison_details`). -/
structure CompState where
  all_services : Bool
  all_prices : Bool
  issues : List Issue
  details : List Detail
  deriving DecidableEq, Repr

/-- Initial engine state (lines 771-780). -/
def initState : CompState := ⟨true, true, [], []⟩

/-- The base invoice price of an item (lines 796-799): `float` of the
`unit_price` value inside `try/except (ValueError, TypeError)`,
degrading to `0.0`; an absent/None value reads as `0.0` directly. -/
def basePrice (up : Value) : ℚ :=
  match up with
  | .none => 0
  | v => ((pyFloat v).toOption).getD 0

/-- The invoice price after the `total_price` substitution (lines 801-804):
when the base price is `0` and `total_price` is truthy, `float(total_price)`
is computed (uncaught failure propagates) and replaces the price when it is
strictly positive. -/
def computeInvoicePrice (up tp : Value) : Except String ℚ :=
  let ip0 := basePrice up
  if ip0 = 0 ∧ pyTruthy tp = true then
    match pyFloat tp with
    | .error e => .error e
    | .ok t => .ok (if t > 0 then t else ip0)
  else .ok ip0

/-- Process one invoice item (loop body, lines 783-908): skip non-dicts and
falsy descriptions, compute the invoice price, run the matcher, record the
detail entry/issues, and apply the missing-price fallback block (882-908). -/
def processItem (svcs : List (String × SvcData)) (invTotal : Value)
    (st : CompState) (item : RawItem) : Except String CompState :=
  match item with
  | .notDict => .ok st
  | .mk desc up tp =>
    match desc with
    | .none => .ok st
    | .num q => if q = 0 then .ok st else .error "AttributeError: object has no attribute lower"
    | .str s =>
      if s = "" then .ok st
      else
        match computeInvoicePrice up tp with
        | .error e => .error e
        | .ok ip =>
          let snorm := normWs (lowerStr s)
          match findMatch svcs snorm with
          | Option.none =>
            .ok { all_services := false,
                  all_prices := false,
                  issues := st.issues ++ [.service_not_in_contract s],
                  details := st.details ++ [⟨s, Option.none, ip, false, Option.none⟩] }
          | some (_, data) =>
            let cp := data.price
            let pm := priceMatch ip cp
            let st1 : CompState :=
              { all_services := st.all_services,
                all_prices := if pm then st.all_prices else false,
                issues := if pm then st.issues else st.issues ++ [.price_mismatch s cp ip],
                details := st.details ++ [⟨s, some cp, ip, pm, Option.none⟩] }
            if ip = 0 ∧ pyTruthy invTotal = true then
              .ok { all_services := st1.all_services,
                    all_prices := false,
                    issues := st1.issues ++ [.price_mismatch s cp 0],
                    details := st1.details ++
                      [⟨s, some cp, 0, false, some "Price not detected in invoice"⟩] }
            else .ok st1

/-- Process the invoice items in order. -/
def processItems (svcs : List (String × SvcData)) (invTotal : Value) :
    CompState → List RawItem → Except String CompState
  | st, [] => .ok st
  | st, item :: rest =>
    match processItem svcs invTotal st item with
    | .error e => .error e
    | .ok st' => processItems svcs invTotal st' rest

/-- The full comparison result (lines 717-745, 917-924, 929-939).
`supplier_flag` is the `matches["supplier_name"]` entry, present only in
the short-circuit and error results; `details` is the
`price_comparison_details` key, present only in the normal result.  The
echo of the raw `invoice_data` payload in the result dict is not modelled
(no property concerns it). -/
structure ComparisonResult where
  contract_id : String
  supplier_flag : Option Bool
  prices_match : Bool
  all_services_in_contract : Bool
  issues : List Issue
  overall_match : Bool
  details : Option (List Detail)
  deriving DecidableEq, Repr

/-- The short-circuit result for an empty/serviceless contract (718-730). -/
def contractInvalidResult (cid : String) : ComparisonResult :=
  ⟨cid, some false, false, false,
    [.contract_invalid "Contract is empty or has no services"], false, Option.none⟩

/-- The short-circuit result for an empty invoice dict (733-745). -/
def invoiceInvalidResult (cid : String) : ComparisonResult :=
  ⟨cid, some false, false, false,
    [.invoice_invalid "Invoice data is empty"], false, Option.none⟩

/-- The `try:` body of `compare_invoice_with_contract_async` (716-924):
short-circuits, `contract_services` construction, the per-item loop, and
the final flag assembly.  An `.error` is an uncaught Python exception. -/
def compareBody (contract : Option Contract) (inv : InvoiceData) :
    Except String ComparisonResult :=
  match contract with
  | Option.none => .ok (contractInvalidResult "unknown")
  | some c =>
    if c.services = [] then .ok (contractInvalidResult c.id)
    else if inv.isEmptyDict then .ok (invoiceInvalidResult c.id)
    else
      let items := inv.itemsKey.getD []
      match buildServices c.services with
      | .error e => .error e
      | .ok svcs =>
        match processItems svcs inv.getTotal initState items with
        | .error e => .error e
        | .ok st =>
          .ok ⟨c.id, Option.none, st.all_prices, st.all_services, st.issues,
            st.all_services && st.all_prices, some st.details⟩

/-- The fallback result built by the `except` handler (929-939). -/
def errorResult (contract : Option Contract) (e : String) : ComparisonResult :=
  ⟨(match contract with | Option.none => "unknown" | some c => c.id),
    some false, false, false, [.comparison_error e], false, Option.none⟩

/-- `compare_invoice_with_contract_async` itself: the body with its
top-level exception handler. -/
def compareTop (contract : Option Contract) (inv : InvoiceData) : ComparisonResult :=
  match compareBody contract inv with
  | .ok r => r
  | .error e => errorResult contract e

/-! ### Extraction normalization pipeline
(`document_models.py`: `InvoiceItemModel`, `ExtractedInvoiceModel`) -/

/-- A calendar date (`datetime.date`). -/
structure PyDate where
  y : ℕ
  m : ℕ
  d : ℕ
  deriving DecidableEq, Repr

/-- A value supplied for one of the date fields: `None`, a string, a
`date`, or a `datetime` (truncated to its date; time-of-day is not
modelled as the code discards it). -/
inductive DValue where
  | dnone
  | dstr (s : String)
  | ddate (d : PyDate)
  | ddatetime (d : PyDate)
  deriving DecidableEq, Repr

/-- Leap year rule. -/
def leapYear (y : ℕ) : Bool := (y % 4 == 0 && y % 100 != 0) || y % 400 == 0

/-- Days in a month. -/
def daysInMonth (y m : ℕ) : ℕ :=
  if m = 2 then (if leapYear y then 29 else 28)
  else if m = 4 ∨ m = 6 ∨ m = 9 ∨ m = 11 then 30
  else 31

/-- Split a character list on `-` separators. -/
def splitDash : List Char → List (List Char)
  | [] => [[]]
  | c :: cs =>
    let rest := splitDash cs
    if c = '-' then [] :: rest
    else
      match rest with
      | [] => [[c]]
      | w :: ws => (c :: w) :: ws

/-- Model of `datetime.strptime(s, "%Y-%m-%d").date()`: three dash-separated
digit groups (year up to four digits, month and day up to two), with the
month and day validated against the calendar. `none` models `ValueError`. -/
def parseDateStr (s : String) : Option PyDate :=
  match splitDash s.data with
  | [ys, ms, ds] =>
    if allDigits ys ∧ ys ≠ [] ∧ ys.length ≤ 4 ∧
        allDigits ms ∧ ms ≠ [] ∧ ms.length ≤ 2 ∧
        allDigits ds ∧ ds ≠ [] ∧ ds.length ≤ 2 then
      let y := (parseDigits ys).1
      let m := (parseDigits ms).1
      let d := (parseDigits ds).1
      if 1 ≤ m ∧ m ≤ 12 ∧ 1 ≤ d ∧ d ≤ daysInMonth y m then some ⟨y, m, d⟩
      else Option.none
    else Option.none
  | _ => Option.none

/-- The `parse_date` validator (document_models.py lines 57-68): strings go
through `strptime` (unparseable → `None`), datetimes are truncated, dates
pass through, everything else becomes `None`. -/
def parse_date : DValue → Option PyDate
  | .dstr s => parseDateStr s
  | .ddatetime d => some d
  | .ddate d => some d
  | .dnone => Option.none

/-- Zero-pad a number to a width. -/
def padNum (n w : ℕ) : String :=
  let s := toString n
  String.mk (List.replicate (w - s.length) '0') ++ s

/-- `date.isoformat()`. -/
def isoformat (d : PyDate) : String :=
  padNum d.y 4 ++ "-" ++ padNum d.m 2 ++ "-" ++ padNum d.d 2

/-- The raw payload for one line item.  The outer `Option` is key
presence; `description` and the other restricted fields carry the shapes
the validators distinguish. -/
structure RawItemPayload where
  description : Option (Option String)
  quantity : Option Value
  unit_price : Option Value
  total_price : Option Value
  deriving DecidableEq, Repr

/-- A normalized line item (a validated `InvoiceItemModel`). -/
structure Item where
  description : String
  quantity : ℚ
  unit_price : ℚ
  total_price : Option ℚ
  deriving DecidableEq, Repr

/-- The `ensure_float` validator (lines 11-18) as it applies to `quantity`:
an absent key lets the field default `1.0` through; a present `None`
becomes `0.0`; a string parses with `float` or degrades to `0.0`. -/
def coerceQuantity : Option Value → ℚ
  | Option.none => 1
  | some .none => 0
  | some (.num q) => q
  | some (.str s) => (parseFloat s).getD 0

/-- `ensure_float` on `unit_price` (field default `0.0`). -/
def coerceUnitPrice : Option Value → ℚ
  | Option.none => 0
  | some .none => 0
  | some (.num q) => q
  | some (.str s) => (parseFloat s).getD 0

/-- The computed fallback total of the `pre` root validator
`fill_total_price_from_unit_price_and_quantity` (lines 20-33): `float` of
quantity (default `1.0`) times `float` of unit price (default `0.0`),
degrading to `0.0` if either `float` raises. -/
def computedTotal (raw : RawItemPayload) : ℚ :=
  let q := raw.quantity.getD (.num 1)
  let up := raw.unit_price.getD (.num 0)
  let qf : Except String ℚ := match q with | .none => .ok 1 | v => pyFloat v
  let upf : Except String ℚ := match up with | .none => .ok 0 | v => pyFloat v
  match qf, upf with
  | .ok a, .ok b => a * b
  | _, _ => 0

/-- Validation of the (pre-filled) `total_price` field: a missing/None raw
value was replaced by the computed fallback; a raw number passes; a raw
string passes through pydantic's float coercion, raising a validation
error when unparseable. -/
def validateTotalPrice (raw : RawItemPayload) : Except String (Option ℚ) :=
  match raw.total_price with
  | Option.none => .ok (some (computedTotal raw))
  | some .none => .ok (some (computedTotal raw))
  | some (.num q) => .ok (some q)
  | some (.str s) =>
    match parseFloat s with
    | some q => .ok (some q)
    | Option.none => .error "value is not a valid float"

/-- Full validation of one raw item (`InvoiceItemModel(**raw)`): the `pre`
root validator, the field validators, and the post root validator
`calculate_total_price_if_still_none` (lines 35-43). -/
def normalizeItem (raw : RawItemPayload) : Except String Item :=
  match raw.description with
  | some Option.none => .error "none is not an allowed value"
  | descOpt =>
    let desc := (descOpt.getD (some "Unknown Item")).getD "Unknown Item"
    let q := coerceQuantity raw.quantity
    let up := coerceUnitPrice raw.unit_price
    match validateTotalPrice raw with
    | .error e => .error e
    | .ok tp0 =>
      let tp := match tp0 with
        | Option.none => some (q * up)
        | some t => some t
      .ok ⟨desc, q, up, tp⟩

/-- Validate a list of raw items in order, propagating the first failure
(pydantic validates the `items` field elementwise). -/
def validateItems : List RawItemPayload → Except String (List Item)
  | [] => .ok []
  | raw :: rest =>
    match normalizeItem raw with
    | .error e => .error e
    | .ok it =>
      match validateItems rest with
      | .error e => .error e
      | .ok its => .ok (it :: its)

/-- The raw payload of a whole extracted invoice.  String-typed header
fields are restricted to present/absent and string-or-None shapes, which
are the shapes the validators distinguish; `items` distinguishes absent,
present-but-not-a-list, and a list. -/
structure RawInvoice where
  invoice_number : Option (Option String)
  supplier_name : Option (Option String)
  issue_date : Option DValue
  due_date : Option DValue
  items : Option (Option (List RawItemPayload))
  subtotal : Option Value
  tax : Option Value
  total : Option Value
  raw_text : Option (Option String)
  deriving DecidableEq, Repr

/-- A normalized extracted invoice (a validated `ExtractedInvoiceModel`). -/
structure Invoice where
  invoice_number : String
  supplier_name : String
  issue_date : Option PyDate
  due_date : Option PyDate
  items : List Item
  subtotal : ℚ
  tax : ℚ
  total : ℚ
  raw_text : Option String
  deriving DecidableEq, Repr

/-- The `ensure_float_optional` validator (lines 70-77) for `subtotal`,
`tax` and `total` (all default `0.0`, `always=True`). -/
def coerceMoney : Option Value → ℚ
  | Option.none => 0
  | some .none => 0
  | some (.num q) => q
  | some (.str s) => (parseFloat s).getD 0

/-- Sum of the non-`None` item totals
(`sum(item.total_price for item in items if item.total_price is not None)`). -/
def sumTotalPrices : List Item → ℚ
  | [] => 0
  | it :: rest => (it.total_price.getD 0) + sumTotalPrices rest

/-- The `pre` root validator `handle_missing_fields_from_gemini`
(lines 79-92): fill missing/None `invoice_number` (from the current
timestamp), `supplier_name`, and `issue_date` (today's isoformat string),
and force a non-list `items` to `[]`. -/
def preRootInvoice (today : PyDate) (now : String) (raw : RawInvoice) : RawInvoice :=
  { raw with
    invoice_number :=
      match raw.invoice_number with
      | Option.none => some (some ("INV-" ++ now))
      | some Option.none => some (some ("INV-" ++ now))
      | v => v
    supplier_name :=
      match raw.supplier_name with
      | Option.none => some (some "Unknown Supplier")
      | some Option.none => some (some "Unknown Supplier")
      | v => v
    issue_date :=
      match raw.issue_date with
      | Option.none => some (.dstr (isoformat today))
      | some .dnone => some (.dstr (isoformat today))
      | v => v
    items :=
      match raw.items with
      | some (some l) => some (some l)
      | _ => some (some []) }

/-- The post root validator `calculate_total_from_items_if_zero`
(lines 94-121), acting on the already-validated `total` and `items`:
recompute a zero total from a positive item sum, and synthesize the
`"Unknown Item"` line when there are no items but a positive total. -/
def postRootInvoice (total : ℚ) (items : List Item) : ℚ × List Item :=
  let total1 :=
    if total = 0 then
      if items ≠ [] then
        let calcTotal := sumTotalPrices items
        if calcTotal > 0 then calcTotal else total
      else total
    else total
  if items = [] ∧ total1 = 0 then (total1, items)
  else if items = [] ∧ total1 > 0 then
    (total1, [⟨"Unknown Item", 1, total1, some total1⟩])
  else (total1, items)

/-- Full validation of a raw invoice payload
(`ExtractedInvoiceModel(**raw)`): the `pre` root validator, the field
validators in declaration order (an item validation failure fails the
document), and the post root validator.  `today`/`now` stand for
`date.today()` / `datetime.now().strftime(...)`. -/
def normalizeInvoice (today : PyDate) (now : String) (raw : RawInvoice) :
    Except String Invoice :=
  let raw1 := preRootInvoice today now raw
  let invNo := (raw1.invoice_number.getD (some "Unknown")).getD "Unknown"
  let supplier := (raw1.supplier_name.getD (some "Unknown")).getD "Unknown"
  let issueDate :=
    match raw1.issue_date with
    | Option.none => Option.none
    | some v => parse_date v
  let dueDate :=
    match raw1.due_date with
    | Option.none => Option.none
    | some v => parse_date v
  match validateItems ((raw1.items.getD (some [])).getD []) with
  | .error e => .error e
  | .ok items0 =>
    let subtotal := coerceMoney raw1.subtotal
    let tax := coerceMoney raw1.tax
    let total0 := coerceMoney raw1.total
    let rawText :=
      match raw1.raw_text with
      | Option.none => some ""
      | some Option.none => Option.none
      | some (some s) => some s
    let (total, items) := postRootInvoice total0 items0
    .ok ⟨invNo, supplier, issueDate, dueDate, items, subtotal, tax, total, rawText⟩

/-- Re-serialize a normalized item for a second validation pass
(`model.dict()`: every field is present with its typed value). -/
def reRawItem (it : Item) : RawItemPayload :=
  ⟨some (some it.description), some (.num it.quantity), some (.num it.unit_price),
    match it.total_price with
    | some t => some (.num t)
    | Option.none => some .none⟩

/-- Re-serialize a normalized invoice for a second validation pass. -/
def reRawInvoice (inv : Invoice) : RawInvoice :=
  ⟨some (some inv.invoice_number),
    some (some inv.supplier_name),
    some (match inv.issue_date with | some d => .ddate d | Option.none => .dnone),
    some (match inv.due_date with | some d => .ddate d | Option.none => .dnone),
    some (some (inv.items.map reRawItem)),
    some (.num inv.subtotal),
    some (.num inv.tax),
    some (.num inv.total),
    some inv.raw_text⟩

/-- The items list the engine iterates over, as read from a raw payload. -/
def rawItemsOf (raw : RawInvoice) : List RawItemPayload :=
  (raw.items.getD (some [])).getD []

/-- An invoice item the loop skips with `continue`: not a dict, or a falsy
`description` (lines 784-789). -/
def skippedItem : RawItem → Bool
  | .notDict => true
  | .mk d _ _ => !pyTruthy d

/-- The three-tier matcher exactly as the spec words it (§4.3), written
independently of `findMatch` for the refinement claim C7: exact equality
first; then the first substring hit in contract order; then the first
contract item whose word-set intersection with the invoice item has at
least 2 words, or is non-empty with at least half the invoice item's
words. -/
def specFindMatch (svcs : List (String × SvcData)) (snorm : String) :
    Option (String × SvcData) :=
  match svcs.find? (fun p => decide (p.1 = snorm)) with
  | some p => some p
  | Option.none =>
    match svcs.find?
        (fun p => decide (isSubstringOf snorm p.1 = true ∨ isSubstringOf p.1 snorm = true)) with
    | some p => some p
    | Option.none =>
      svcs.find? (fun p =>
        decide (2 ≤ interCount (wordsOf snorm) (wordsOf p.1) ∨
          (0 < interCount (wordsOf snorm) (wordsOf p.1) ∧
            (1 : ℚ) / 2 ≤
              (interCount (wordsOf snorm) (wordsOf p.1) : ℚ) / ((wordsOf snorm).length : ℚ))))

/-! ### Helper lemmas -/

/-- `find?` only depends on the pointwise behaviour of its predicate. -/
theorem find?_congr_pred {α : Type} (p q : α → Bool) (h : ∀ a, p a = q a) :
    ∀ l : List α, l.find? p = l.find? q
  | [] => rfl
  | a :: as => by
    simp only [List.find?]
    rw [h a]
    cases q a with
    | true => rfl
    | false => exact find?_congr_pred p q h as

/-- The pre root validator always leaves `items` as a present list. -/
theorem preRoot_items (today : PyDate) (now : String) (raw : RawInvoice) :
    (preRootInvoice today now raw).items = some (some (rawItemsOf raw)) := by
  unfold preRootInvoice rawItemsOf
  cases hr : raw.items with
  | none => rfl
  | some o =>
    cases o with
    | none => rfl
    | some l => rfl

/-- The pre root validator does not touch the numeric header fields. -/
theorem preRoot_total (today : PyDate) (now : String) (raw : RawInvoice) :
    (preRootInvoice today now raw).total = raw.total := rfl

/-! ### Claim C2 -/

/-- C2 counterexample: a contract with one service and an invoice whose
data dict is non-empty but whose items sequence is empty does NOT
short-circuit with an `invoice_invalid` issue — the engine returns both
match flags true, `overall_match = true`, and no issues at all. -/
theorem C2_counterexample :
    compareTop (some ⟨"c1", [.mk (.str "Consulting") (.num 100)]⟩)
        ⟨some [], Option.none, false⟩ =
      ⟨"c1", Option.none, true, true, [], true, some []⟩ := by decide

/-- C2 amended: the engine short-circuits with a single `invoice_invalid`
issue and both match flags false exactly when the invoice data mapping
itself is empty (`not invoice_data`); an invoice whose data is non-empty
but whose items sequence is empty or absent instead runs the loop over no
items and returns both flags true, `overall_match = true` and no issues
(provided the contract has services and they build without error). -/
theorem C2_amended :
    (∀ (c : Contract) (inv : InvoiceData), c.services ≠ [] →
      inv.isEmptyDict = true →
      compareTop (some c) inv =
        ⟨c.id, some false, false, false,
          [.invoice_invalid "Invoice data is empty"], false, Option.none⟩) ∧
    (∀ (c : Contract) (inv : InvoiceData) (svcs : List (String × SvcData)),
      c.services ≠ [] →
      inv.isEmptyDict = false →
      inv.itemsKey.getD [] = [] →
      buildServices c.services = .ok svcs →
      compareTop (some c) inv =
        ⟨c.id, Option.none, true, true, [], true, some []⟩) := by
  constructor
  · intro c inv hc he
    simp [compareTop, compareBody, hc, he, invoiceInvalidResult]
  · intro c inv svcs hc he hi hb
    simp [compareTop, compareBody, hc, he, hi, hb, processItems, initState]

/-- C2 amended witness: both branches at concrete inputs. -/
theorem C2_amended_witness :
    compareTop (some ⟨"c1", [.mk (.str "Consulting") (.num 100)]⟩)
        ⟨Option.none, Option.none, false⟩ =
      ⟨"c1", some false, false, false,
        [.invoice_invalid "Invoice data is empty"], false, Option.none⟩ ∧
    compareTop (some ⟨"c1", [.mk (.str "Consulting") (.num 100)]⟩)
        ⟨Option.none, some (.num 7), false⟩ =
      ⟨"c1", Option.none, true, true, [], true, some []⟩ := by
  constructor
  · exact C2_amended.1 ⟨"c1", [.mk (.str "Consulting") (.num 100)]⟩
      ⟨Option.none, Option.none, false⟩ (by decide) (by decide)
  · exact C2_amended.2 ⟨"c1", [.mk (.str "Consulting") (.num 100)]⟩
      ⟨Option.none, some (.num 7), false⟩
      [("consulting", ⟨"Consulting", 100⟩)] (by decide) (by decide) (by decide) (by rfl)

/-! ### Claim C5 -/

/-- C5 counterexample: a raw item whose `quantity` is present but `None`
normalizes to quantity `0.0`, not `1.0`; likewise an unparseable string. -/
theorem C5_counterexample :
    normalizeItem ⟨some (some "A"), some .none, some (.num 5), some (.num 5)⟩ =
      .ok ⟨"A", 0, 5, some 5⟩ ∧
    normalizeItem ⟨some (some "A"), some (.str "abc"), some (.num 5), some (.num 5)⟩ =
      .ok ⟨"A", 0, 5, some 5⟩ ∧
    (0 : ℚ) ≠ 1 := by
  refine ⟨by rfl, by rfl, by decide⟩

/-- C5 amended: only an absent `quantity` key defaults to `1.0`; a
`quantity` present as `None` or as an unparseable string normalizes to
`0.0` (the `ensure_float` validator's fallback), not `1.0`. -/
theorem C5_amended (raw : RawItemPayload) (it : Item)
    (h : normalizeItem raw = .ok it) :
    (raw.quantity = Option.none → it.quantity = 1) ∧
    (raw.quantity = some .none → it.quantity = 0) ∧
    (∀ s, raw.quantity = some (.str s) → parseFloat s = Option.none →
      it.quantity = 0) := by
  have hq : it.quantity = coerceQuantity raw.quantity := by
    unfold normalizeItem at h
    rcases raw with ⟨d, q, up, tp⟩
    rcases d with _ | d0
    · simp only at h
      rcases hv : validateTotalPrice ⟨Option.none, q, up, tp⟩ with e | tp0 <;>
        rw [hv] at h <;> simp at h
      rw [← h]
    · rcases d0 with _ | s
      · simp at h
      · simp only at h
        rcases hv : validateTotalPrice ⟨some (some s), q, up, tp⟩ with e | tp0 <;>
          rw [hv] at h <;> simp at h
        rw [← h]
  refine ⟨?_, ?_, ?_⟩
  · intro hqq; rw [hq, hqq]; rfl
  · intro hqq; rw [hq, hqq]; rfl
  · intro s hqq hp; rw [hq, hqq]; simp [coerceQuantity, hp]

/-- C5 amended witness: an item with `quantity` absent normalizes to
quantity `1.0`; with `quantity = None` to `0.0`; with `quantity = "abc"`
to `0.0`. -/
theorem C5_amended_witness :
    (normalizeItem ⟨some (some "A"), Option.none, some (.num 5), some (.num 5)⟩ =
        .ok ⟨"A", 1, 5, some 5⟩ ∧ (1 : ℚ) = 1) ∧
    (normalizeItem ⟨some (some "A"), some (.str "abc"), some (.num 5), some (.num 5)⟩ =
        .ok ⟨"A", 0, 5, some 5⟩ ∧ parseFloat "abc" = Option.none ∧ (0 : ℚ) = 0) := by
  refine ⟨⟨by rfl, ?_⟩, ⟨by rfl, by rfl, ?_⟩⟩
  · exact (C5_amended ⟨some (some "A"), Option.none, some (.num 5), some (.num 5)⟩
      ⟨"A", 1, 5, some 5⟩ (by rfl)).1 rfl
  · exact (C5_amended ⟨some (some "A"), some (.str "abc"), some (.num 5), some (.num 5)⟩
      ⟨"A", 0, 5, some 5⟩ (by rfl)).2.2 "abc" rfl (by rfl)

/-! ### Claim C6 -/

/-- The post root validator on an empty item list: the total is untouched
and one item is synthesized exactly when the total is positive. -/
theorem postRoot_empty (total : ℚ) :
    postRootInvoice total [] =
      (total, if 0 < total then [⟨"Unknown Item", 1, total, some total⟩] else []) := by
  unfold postRootInvoice
  rcases lt_trichotomy total 0 with hlt | heq | hgt
  · simp [hlt.ne, not_lt.mpr hlt.le]
  · simp [heq]
  · simp [hgt.ne', hgt]

/-- C6: for every raw invoice payload whose items sequence is empty
(absent, not a list, or an empty list — all of which normalize to no
items): if the coerced document total is strictly positive, the normalized
document has exactly one line item `("Unknown Item", 1.0, total, total)`;
if the coerced total is `0.0` (which covers a missing total), items stays
empty.  The document total itself is the coerced raw total. -/
theorem C6_theorem (today : PyDate) (now : String) (raw : RawInvoice)
    (h : rawItemsOf raw = []) :
    ∃ doc, normalizeInvoice today now raw = .ok doc ∧
      doc.total = coerceMoney raw.total ∧
      (0 < coerceMoney raw.total →
        doc.items =
          [⟨"Unknown Item", 1, coerceMoney raw.total, some (coerceMoney raw.total)⟩]) ∧
      (coerceMoney raw.total = 0 → doc.items = []) := by
  have hit : (preRootInvoice today now raw).items = some (some []) := by
    rw [preRoot_items, h]
  have htot : (preRootInvoice today now raw).total = raw.total := preRoot_total today now raw
  unfold normalizeInvoice
  simp only [hit, htot, Option.getD_some, validateItems, postRoot_empty]
  refine ⟨_, rfl, rfl, fun hp => by simp [hp], fun hz => by simp [hz]⟩

/-- C6 witness: the synthesis law at total `500.0` on a concrete
empty-items payload. -/
theorem C6_theorem_witness :
    rawItemsOf ⟨some (some "N1"), some (some "S"), some (.ddate ⟨2024, 1, 2⟩), Option.none,
        some (some []), Option.none, Option.none, some (.num 500), Option.none⟩ = [] ∧
    ∃ doc,
      normalizeInvoice ⟨2024, 1, 2⟩ "ts"
          ⟨some (some "N1"), some (some "S"), some (.ddate ⟨2024, 1, 2⟩), Option.none,
            some (some []), Option.none, Option.none, some (.num 500), Option.none⟩ =
        .ok doc ∧
      doc.total = coerceMoney (some (.num 500)) ∧
      (0 < coerceMoney (some (.num 500)) →
        doc.items = [⟨"Unknown Item", 1, coerceMoney (some (.num 500)),
          some (coerceMoney (some (.num 500)))⟩]) ∧
      (coerceMoney (some (.num 500)) = 0 → doc.items = []) :=
  ⟨rfl, C6_theorem ⟨2024, 1, 2⟩ "ts"
    ⟨some (some "N1"), some (some "S"), some (.ddate ⟨2024, 1, 2⟩), Option.none,
      some (some []), Option.none, Option.none, some (.num 500), Option.none⟩ rfl⟩

/-! ### Claim C8 -/

/-- C8: the reconciliation engine never propagates an exception: for every
input, either the `try:` body succeeds and its result is returned
unchanged, or the body raises and the engine returns the fallback result
with both match flags false, `overall_match = false` and a single
`comparison_error` issue carrying the error message.  The final conjunct
shows the error path is reachable: a contract service with the unparseable
unit price `"xx"` makes the body raise inside `float`, and the engine
still returns a well-formed result. -/
theorem C8_theorem :
    (∀ (c : Option Contract) (inv : InvoiceData),
      (∃ r, compareBody c inv = .ok r ∧ compareTop c inv = r) ∨
      (∃ e, compareBody c inv = .error e ∧
        compareTop c inv = errorResult c e ∧
        (errorResult c e).prices_match = false ∧
        (errorResult c e).all_services_in_contract = false ∧
        (errorResult c e).overall_match = false ∧
        (errorResult c e).issues = [.comparison_error e])) ∧
    compareBody (some ⟨"c", [.mk (.str "A") (.str "xx")]⟩)
        ⟨some [], Option.none, false⟩ =
      .error "could not convert string to float: xx" ∧
    compareTop (some ⟨"c", [.mk (.str "A") (.str "xx")]⟩)
        ⟨some [], Option.none, false⟩ =
      ⟨"c", some false, false, false,
        [.comparison_error "could not convert string to float: xx"], false,
        Option.none⟩ := by
  refine ⟨fun c inv => ?_, by rfl, by rfl⟩
  cases h : compareBody c inv with
  | ok r => exact Or.inl ⟨r, rfl, by simp [compareTop, h]⟩
  | error e => exact Or.inr ⟨e, rfl, by simp [compareTop, h], rfl, rfl, rfl, rfl⟩

/-! ### Claim C10 -/

/-- C10: for every invoice item whose `unit_price` coerces to `0` but
whose `total_price` is a strictly positive number, the engine substitutes
the `total_price` for the invoice price: the single price-comparison
detail entry appended for the item records `invoice_price = total_price`,
and when the item matches, the price comparison is evaluated against the
substituted price. -/
theorem C10_theorem (svcs : List (String × SvcData)) (tot : Value)
    (st : CompState) (s : String) (up : Value) (t : ℚ) (st' : CompState)
    (hs : s ≠ "") (hup : basePrice up = 0) (ht : 0 < t)
    (hok : processItem svcs tot st (.mk (.str s) up (.num t)) = .ok st') :
    ∃ d : Detail, st'.details = st.details ++ [d] ∧
      d.invoice_price = t ∧ d.service_name = s ∧
      (∀ n data, findMatch svcs (normWs (lowerStr s)) = some (n, data) →
        d.contract_price = some data.price ∧ d.matched = priceMatch t data.price) := by
  have htr : pyTruthy (.num t) = true := by
    simp [pyTruthy, ht.ne']
  have hcp : computeInvoicePrice up (.num t) = .ok t := by
    unfold computeInvoicePrice
    rw [hup, if_pos ⟨rfl, htr⟩]
    simp [pyFloat, ht]
  rw [show processItem svcs tot st (.mk (.str s) up (.num t)) =
      (if s = "" then .ok st else
        match computeInvoicePrice up (.num t) with
        | .error e => .error e
        | .ok ip =>
          match findMatch svcs (normWs (lowerStr s)) with
          | Option.none =>
            .ok { all_services := false, all_prices := false,
                  issues := st.issues ++ [.service_not_in_contract s],
                  details := st.details ++ [⟨s, Option.none, ip, false, Option.none⟩] }
          | some (_, data) =>
            let cp := data.price
            let pm := priceMatch ip cp
            let st1 : CompState :=
              { all_services := st.all_services,
                all_prices := if pm then st.all_prices else false,
                issues := if pm then st.issues else st.issues ++ [.price_mismatch s cp ip],
                details := st.details ++ [⟨s, some cp, ip, pm, Option.none⟩] }
            if ip = 0 ∧ pyTruthy tot = true then
              .ok { all_services := st1.all_services, all_prices := false,
                    issues := st1.issues ++ [.price_mismatch s cp 0],
                    details := st1.details ++
                      [⟨s, some cp, 0, false, some "Price not detected in invoice"⟩] }
            else .ok st1)
      from rfl] at hok
  rw [if_neg hs] at hok
  cases hm : findMatch svcs (normWs (lowerStr s)) with
  | none =>
    simp only [hcp, hm, Except.ok.injEq] at hok
    refine ⟨⟨s, Option.none, t, false, Option.none⟩, ?_, rfl, rfl, ?_⟩
    · rw [← hok]
    · intro n data hd
      exact Option.noConfusion hd
  | some p =>
    obtain ⟨n0, data0⟩ := p
    simp only [hcp, hm] at hok
    rw [if_neg (fun hc => ht.ne' hc.1)] at hok
    simp only [Except.ok.injEq] at hok
    refine ⟨⟨s, some data0.price, t, priceMatch t data0.price, Option.none⟩, ?_, rfl, rfl, ?_⟩
    · rw [← hok]
    · intro n data hd
      injection hd with h1
      have h2 : data0 = data := congrArg Prod.snd h1
      rw [← h2]
      exact ⟨rfl, rfl⟩

unseal Rat.sub Rat.add Rat.mul Rat.inv in
/-- C10 witness: a concrete matched item with `unit_price = 0` and
`total_price = 75` produces one detail entry with invoice price `75`. -/
theorem C10_theorem_witness :
    (("Alpha" : String) ≠ "" ∧ basePrice (.num 0) = 0 ∧ (0 : ℚ) < 75) ∧
    ∃ d : Detail,
      ({ all_services := true, all_prices := false,
         issues := [.price_mismatch "Alpha" 100 75],
         details := [⟨"Alpha", some 100, 75, false, Option.none⟩] } : CompState).details =
        ([] : List Detail) ++ [d] ∧
      d.invoice_price = 75 ∧ d.service_name = "Alpha" ∧
      (∀ n data,
        findMatch [("alpha", ⟨"Alpha", 100⟩)] (normWs (lowerStr "Alpha")) = some (n, data) →
        d.contract_price = some data.price ∧ d.matched = priceMatch 75 data.price) :=
  ⟨⟨by decide, by decide, by decide⟩,
    C10_theorem [("alpha", ⟨"Alpha", 100⟩)] (.num 200) initState "Alpha" (.num 0) 75
      { all_services := true, all_prices := false,
        issues := [.price_mismatch "Alpha" 100 75],
        details := [⟨"Alpha", some 100, 75, false, Option.none⟩] }
      (by decide) (by decide) (by decide) (by decide)⟩

/-! ### Claim C1 -/

/-- Unfolding of the per-item loop body on a dict item with a string
description: the skip test, price computation, matcher dispatch, and the
missing-price fallback, exactly as in `processItem`. -/
theorem processItem_str (svcs : List (String × SvcData)) (tot : Value)
    (st : CompState) (s : String) (up tp : Value) :
    processItem svcs tot st (.mk (.str s) up tp) =
      (if s = "" then .ok st else
        match computeInvoicePrice up tp with
        | .error e => .error e
        | .ok ip =>
          match findMatch svcs (normWs (lowerStr s)) with
          | Option.none =>
            .ok { all_services := false, all_prices := false,
                  issues := st.issues ++ [.service_not_in_contract s],
                  details := st.details ++ [⟨s, Option.none, ip, false, Option.none⟩] }
          | some (_, data) =>
            let cp := data.price
            let pm := priceMatch ip cp
            let st1 : CompState :=
              { all_services := st.all_services,
                all_prices := if pm then st.all_prices else false,
                issues := if pm then st.issues else st.issues ++ [.price_mismatch s cp ip],
                details := st.details ++ [⟨s, some cp, ip, pm, Option.none⟩] }
            if ip = 0 ∧ pyTruthy tot = true then
              .ok { all_services := st1.all_services, all_prices := false,
                    issues := st1.issues ++ [.price_mismatch s cp 0],
                    details := st1.details ++
                      [⟨s, some cp, 0, false, some "Price not detected in invoice"⟩] }
            else .ok st1) := rfl

unseal Rat.sub Rat.add Rat.mul Rat.inv in
/-- C1 counterexample: on the spec's end-to-end scenario — contract items
`[("Consulting", 100.0)]`, invoice items
`[("Consulting Services", 100.0), ("Travel", 50.0)]` — the engine returns
`prices_match = false`, not `true` as claimed: the unmatched item "Travel"
also clears the running `all_prices_match` flag. -/
theorem C1_counterexample :
    compareTop (some ⟨"c1", [.mk (.str "Consulting") (.num 100)]⟩)
        ⟨some [.mk (.str "Consulting Services") (.num 100) .none,
               .mk (.str "Travel") (.num 50) .none], some (.num 150), false⟩ =
      ⟨"c1", Option.none, false, false, [.service_not_in_contract "Travel"], false,
        some [⟨"Consulting Services", some 100, 100, true, Option.none⟩,
              ⟨"Travel", Option.none, 50, false, Option.none⟩]⟩ := by decide

unseal Rat.sub Rat.add Rat.mul Rat.inv in
/-- C1 amended: in the end-to-end scenario the engine returns
`all_services_in_contract = false`, `overall_match = false` and exactly one
issue `service_not_in_contract "Travel"`, but `prices_match = false` as
well: generally, an unmatched invoice item sets BOTH
`all_services_in_contract` and the running price flag to false (and
appends the issue and a `contract_price = null, matched = false` detail
entry). -/
theorem C1_amended :
    (compareTop (some ⟨"c1", [.mk (.str "Consulting") (.num 100)]⟩)
        ⟨some [.mk (.str "Consulting Services") (.num 100) .none,
               .mk (.str "Travel") (.num 50) .none], some (.num 150), false⟩ =
      ⟨"c1", Option.none, false, false, [.service_not_in_contract "Travel"], false,
        some [⟨"Consulting Services", some 100, 100, true, Option.none⟩,
              ⟨"Travel", Option.none, 50, false, Option.none⟩]⟩) ∧
    (∀ (svcs : List (String × SvcData)) (tot : Value) (st : CompState)
        (s : String) (up tp : Value) (st' : CompState),
      s ≠ "" →
      findMatch svcs (normWs (lowerStr s)) = Option.none →
      processItem svcs tot st (.mk (.str s) up tp) = .ok st' →
      st'.all_services = false ∧ st'.all_prices = false ∧
      st'.issues = st.issues ++ [.service_not_in_contract s] ∧
      ∃ ip, st'.details = st.details ++ [⟨s, Option.none, ip, false, Option.none⟩]) := by
  refine ⟨by decide, ?_⟩
  intro svcs tot st s up tp st' hs hm hok
  rw [processItem_str, if_neg hs] at hok
  cases hcp : computeInvoicePrice up tp with
  | error e => rw [hcp] at hok; exact Except.noConfusion hok
  | ok ip =>
    rw [hcp, hm] at hok
    have h1 := (Except.ok.injEq .. ▸ hok : _ = st')
    refine ⟨?_, ?_, ?_, ⟨ip, ?_⟩⟩ <;> rw [← h1]

/-- C1 amended witness: the "Travel" item, processed against the
"consulting" contract dict, sets both flags false and appends the issue. -/
theorem C1_amended_witness :
    (("Travel" : String) ≠ "" ∧
      findMatch [("consulting", ⟨"Consulting", 100⟩)] (normWs (lowerStr "Travel")) =
        Option.none) ∧
    ∃ st' : CompState,
      processItem [("consulting", ⟨"Consulting", 100⟩)] (.num 150) initState
          (.mk (.str "Travel") (.num 50) .none) = .ok st' ∧
      st'.all_services = false ∧ st'.all_prices = false := by
  refine ⟨⟨by decide, by decide⟩,
    ⟨⟨false, false, [.service_not_in_contract "Travel"],
      [⟨"Travel", Option.none, 50, false, Option.none⟩]⟩, by decide, ?_⟩⟩
  have h := C1_amended.2 [("consulting", ⟨"Consulting", 100⟩)] (.num 150) initState
    "Travel" (.num 50) .none
    ⟨false, false, [.service_not_in_contract "Travel"],
      [⟨"Travel", Option.none, 50, false, Option.none⟩]⟩
    (by decide) (by decide) (by decide)
  exact ⟨h.1, h.2.1⟩

/-! ### Claim C3 -/

/-- Unfolding of the loop body on a dict item with a numeric description
(truthy non-strings make `.lower()` raise). -/
theorem processItem_num (svcs : List (String × SvcData)) (tot : Value)
    (st : CompState) (q : ℚ) (up tp : Value) :
    processItem svcs tot st (.mk (.num q) up tp) =
      (if q = 0 then .ok st
       else .error "AttributeError: object has no attribute lower") := rfl

/-- Per-item accounting of `price_comparison_details`: the loop only ever
appends, a skipped item appends nothing, every processed item appends at
least one and at most two entries, and exactly two are appended precisely
for a matched item whose final invoice price is `0` while the document
total is truthy. -/
theorem processItem_details_spec (svcs : List (String × SvcData)) (tot : Value)
    (st : CompState) (item : RawItem) (st' : CompState)
    (hok : processItem svcs tot st item = .ok st') :
    ∃ ds, st'.details = st.details ++ ds ∧ ds.length ≤ 2 ∧
      (ds = [] ↔ skippedItem item = true) ∧
      (ds.length = 2 ↔ ∃ s up tp ip n data,
        item = .mk (.str s) up tp ∧ s ≠ "" ∧
        computeInvoicePrice up tp = .ok ip ∧
        findMatch svcs (normWs (lowerStr s)) = some (n, data) ∧
        ip = 0 ∧ pyTruthy tot = true) := by
  cases item with
  | notDict =>
    have hst := (Except.ok.injEq .. ▸ hok : st = st')
    refine ⟨[], by rw [← hst, List.append_nil], by simp, by simp [skippedItem], ?_⟩
    constructor
    · intro h; exact absurd h (by simp)
    · rintro ⟨s, up, tp, ip, n, data, heq, -⟩; exact RawItem.noConfusion heq
  | mk desc up tp =>
    cases desc with
    | none =>
      have hst := (Except.ok.injEq .. ▸ hok : st = st')
      refine ⟨[], by rw [← hst, List.append_nil], by simp,
        by simp [skippedItem, pyTruthy], ?_⟩
      constructor
      · intro h; exact absurd h (by simp)
      · rintro ⟨s, up2, tp2, ip, n, data, heq, -⟩
        injection heq with h1 h2 h3
        exact Value.noConfusion h1
    | num q =>
      rw [processItem_num] at hok
      by_cases hq : q = 0
      · rw [if_pos hq] at hok
        have hst := (Except.ok.injEq .. ▸ hok : st = st')
        refine ⟨[], by rw [← hst, List.append_nil], by simp,
          by simp [skippedItem, pyTruthy, hq], ?_⟩
        constructor
        · intro h; exact absurd h (by simp)
        · rintro ⟨s, up2, tp2, ip, n, data, heq, -⟩
          injection heq with h1 h2 h3
          exact Value.noConfusion h1
      · rw [if_neg hq] at hok
        exact Except.noConfusion hok
    | str s =>
      by_cases hs : s = ""
      · rw [processItem_str, if_pos hs] at hok
        have hst := (Except.ok.injEq .. ▸ hok : st = st')
        refine ⟨[], by rw [← hst, List.append_nil], by simp,
          by simp [skippedItem, pyTruthy, hs], ?_⟩
        constructor
        · intro h; exact absurd h (by simp)
        · rintro ⟨s2, up2, tp2, ip, n, data, heq, hs2, -⟩
          injection heq with h1 h2 h3
          injection h1 with h1
          rw [hs] at h1
          exact (hs2 h1.symm).elim
      · rw [processItem_str, if_neg hs] at hok
        cases hcp : computeInvoicePrice up tp with
        | error e => rw [hcp] at hok; exact Except.noConfusion hok
        | ok ip =>
          cases hm : findMatch svcs (normWs (lowerStr s)) with
          | none =>
            simp only [hcp, hm, Except.ok.injEq] at hok
            refine ⟨[⟨s, Option.none, ip, false, Option.none⟩], by rw [← hok],
              by simp, by simp [skippedItem, pyTruthy, hs], ?_⟩
            constructor
            · intro h; exact absurd h (by simp)
            · rintro ⟨s2, up2, tp2, ip2, n, data, heq, hs2, hcp2, hm2, -⟩
              injection heq with h1 h2 h3
              injection h1 with h1
              subst h1; subst h2; subst h3
              rw [hm] at hm2
              exact Option.noConfusion hm2
          | some p =>
            obtain ⟨n0, data0⟩ := p
            simp only [hcp, hm] at hok
            by_cases hc : ip = 0 ∧ pyTruthy tot = true
            · rw [if_pos hc] at hok
              simp only [Except.ok.injEq] at hok
              refine ⟨[⟨s, some data0.price, ip, priceMatch ip data0.price, Option.none⟩,
                ⟨s, some data0.price, 0, false, some "Price not detected in invoice"⟩],
                ?_, by simp, by simp [skippedItem, pyTruthy, hs], ?_⟩
              · rw [← hok]; simp
              · constructor
                · intro _
                  exact ⟨s, up, tp, ip, n0, data0, rfl, hs, hcp, hm, hc.1, hc.2⟩
                · intro _; simp
            · rw [if_neg hc] at hok
              simp only [Except.ok.injEq] at hok
              refine ⟨[⟨s, some data0.price, ip, priceMatch ip data0.price, Option.none⟩],
                by rw [← hok], by simp, by simp [skippedItem, pyTruthy, hs], ?_⟩
              constructor
              · intro h; exact absurd h (by simp)
              · rintro ⟨s2, up2, tp2, ip2, n, data, heq, hs2, hcp2, hm2, hip2, htot2⟩
                injection heq with h1 h2 h3
                injection h1 with h1
                subst h1; subst h2; subst h3
                rw [hcp] at hcp2
                have hip := (Except.ok.injEq .. ▸ hcp2 : ip = ip2)
                exact (hc ⟨hip ▸ hip2, htot2⟩).elim

/-- The per-item loop only appends to the details list, across a whole
run: entries appear in invoice item order. -/
theorem processItems_details_append (svcs : List (String × SvcData)) (tot : Value) :
    ∀ (items : List RawItem) (st st' : CompState),
      processItems svcs tot st items = .ok st' →
      ∃ ds, st'.details = st.details ++ ds
  | [], st, st', hok => by
    have hst := (Except.ok.injEq .. ▸ hok : st = st')
    exact ⟨[], by rw [← hst, List.append_nil]⟩
  | item :: rest, st, st', hok => by
    rw [show processItems svcs tot st (item :: rest) =
        (match processItem svcs tot st item with
         | .error e => .error e
         | .ok st1 => processItems svcs tot st1 rest) from rfl] at hok
    cases h1 : processItem svcs tot st item with
    | error e => rw [h1] at hok; exact Except.noConfusion hok
    | ok st1 =>
      rw [h1] at hok
      obtain ⟨ds1, hd1, -⟩ := processItem_details_spec svcs tot st item st1 h1
      obtain ⟨ds2, hd2⟩ := processItems_details_append svcs tot rest st1 st' hok
      exact ⟨ds1 ++ ds2, by rw [hd2, hd1, List.append_assoc]⟩

unseal Rat.sub Rat.add Rat.mul Rat.inv in
/-- C3 counterexample: a single matched invoice item with invoice price
`0` and a truthy document total produces TWO `price_comparison_details`
entries (the ordinary one and the "Price not detected" one), so the claim
"exactly one entry per invoice item" fails; an item whose description is
empty would conversely produce zero entries. -/
theorem C3_counterexample :
    compareTop (some ⟨"c1", [.mk (.str "Alpha") (.num 100)]⟩)
        ⟨some [.mk (.str "Alpha") (.num 0) .none], some (.num 50), false⟩ =
      ⟨"c1", Option.none, false, true,
        [.price_mismatch "Alpha" 100 0, .price_mismatch "Alpha" 100 0], false,
        some [⟨"Alpha", some 100, 0, false, Option.none⟩,
              ⟨"Alpha", some 100, 0, false, some "Price not detected in invoice"⟩]⟩ ∧
    ([.mk (.str "Alpha") (.num 0) (.none : Value)] : List RawItem).length = 1 ∧
    compareTop (some ⟨"c1", [.mk (.str "Alpha") (.num 100)]⟩)
        ⟨some [.mk (.str "") (.num 5) .none], some (.num 50), false⟩ =
      ⟨"c1", Option.none, true, true, [], true, some []⟩ := by
  exact ⟨by decide, by decide, by decide⟩

/-- C3 amended: details entries are appended in invoice item order, but
the count per item is zero for skipped items (non-dicts and falsy
descriptions), two for a matched item whose final invoice price is `0`
while the document total is truthy, and one in every other processed
case. -/
theorem C3_amended :
    (∀ (svcs : List (String × SvcData)) (tot : Value) (st : CompState)
        (item : RawItem) (st' : CompState),
      processItem svcs tot st item = .ok st' →
      ∃ ds, st'.details = st.details ++ ds ∧ ds.length ≤ 2 ∧
        (ds = [] ↔ skippedItem item = true) ∧
        (ds.length = 2 ↔ ∃ s up tp ip n data,
          item = .mk (.str s) up tp ∧ s ≠ "" ∧
          computeInvoicePrice up tp = .ok ip ∧
          findMatch svcs (normWs (lowerStr s)) = some (n, data) ∧
          ip = 0 ∧ pyTruthy tot = true)) ∧
    (∀ (svcs : List (String × SvcData)) (tot : Value) (items : List RawItem)
        (st st' : CompState),
      processItems svcs tot st items = .ok st' →
      ∃ ds, st'.details = st.details ++ ds) :=
  ⟨processItem_details_spec,
    fun svcs tot items st st' h => processItems_details_append svcs tot items st st' h⟩

unseal Rat.sub Rat.add Rat.mul Rat.inv in
/-- C3 amended witness: on the concrete double-append item the
characterization yields a two-entry block. -/
theorem C3_amended_witness :
    ∃ ds, (CompState.mk true false
        [.price_mismatch "Alpha" 100 0, .price_mismatch "Alpha" 100 0]
        [⟨"Alpha", some 100, 0, false, Option.none⟩,
          ⟨"Alpha", some 100, 0, false, some "Price not detected in invoice"⟩]).details =
        initState.details ++ ds ∧
      ds.length ≤ 2 ∧
      (ds = [] ↔ skippedItem (.mk (.str "Alpha") (.num 0) .none) = true) ∧
      (ds.length = 2 ↔ ∃ s up tp ip n data,
        (RawItem.mk (.str "Alpha") (.num 0) .none) = .mk (.str s) up tp ∧ s ≠ "" ∧
        computeInvoicePrice up tp = .ok ip ∧
        findMatch [("alpha", ⟨"Alpha", 100⟩)] (normWs (lowerStr s)) = some (n, data) ∧
        ip = 0 ∧ pyTruthy (.num 50) = true) :=
  C3_amended.1 [("alpha", ⟨"Alpha", 100⟩)] (.num 50) initState
    (.mk (.str "Alpha") (.num 0) .none)
    { all_services := true, all_prices := false,
      issues := [.price_mismatch "Alpha" 100 0, .price_mismatch "Alpha" 100 0],
      details := [⟨"Alpha", some 100, 0, false, Option.none⟩,
        ⟨"Alpha", some 100, 0, false, some "Price not detected in invoice"⟩] }
    (by decide)

/-! ### Claim C4 -/

unseal Rat.sub Rat.add Rat.mul Rat.inv in
/-- C4 counterexample: the zero/negative quirk (invoice price `0`,
contract price `-50`) passes the price comparison, yet—because the
invoice document total is truthy—the missing-price fallback still appends
a `price_mismatch` issue and clears `prices_match`. -/
theorem C4_counterexample :
    priceMatch 0 (-50) = true ∧
    compareTop (some ⟨"c1", [.mk (.str "Alpha") (.num (-50))]⟩)
        ⟨some [.mk (.str "Alpha") (.num 0) .none], some (.num 50), false⟩ =
      ⟨"c1", Option.none, false, true, [.price_mismatch "Alpha" (-50) 0], false,
        some [⟨"Alpha", some (-50), 0, true, Option.none⟩,
              ⟨"Alpha", some (-50), 0, false, some "Price not detected in invoice"⟩]⟩ := by
  exact ⟨by decide, by decide⟩

unseal Rat.sub Rat.add Rat.mul Rat.inv in
/-- C4 amended: the step-4c comparison succeeds exactly when
`|invoice − contract| ≤ 0.01`, or invoice price is `0` and contract price
negative, or contract price is `0` and invoice price negative; `100.009`
against `100.00` matches and `100.02` does not.  The
contract-zero/invoice-negative quirk never produces a `price_mismatch`
issue nor clears the price flag; the invoice-zero/contract-negative quirk
does neither ONLY while the invoice document total is falsy — with a
truthy total, the missing-price fallback appends a `price_mismatch` issue
and clears `prices_match` despite the successful comparison. -/
theorem C4_amended :
    (∀ ip cp : ℚ, priceMatch ip cp = true ↔
      (pyAbs (ip - cp) ≤ 1 / 100 ∨ (ip = 0 ∧ cp < 0) ∨ (cp = 0 ∧ ip < 0))) ∧
    (priceMatch (100009 / 1000) 100 = true ∧ priceMatch (10002 / 100) 100 = false) ∧
    (∀ (svcs : List (String × SvcData)) (tot : Value) (st : CompState)
        (s : String) (up tp : Value) (n : String) (data : SvcData) (st' : CompState),
      s ≠ "" →
      computeInvoicePrice up tp = .ok 0 →
      findMatch svcs (normWs (lowerStr s)) = some (n, data) →
      data.price < 0 →
      processItem svcs tot st (.mk (.str s) up tp) = .ok st' →
      (pyTruthy tot = false →
        st'.issues = st.issues ∧ st'.all_prices = st.all_prices) ∧
      (pyTruthy tot = true →
        st'.issues = st.issues ++ [.price_mismatch s data.price 0] ∧
        st'.all_prices = false)) ∧
    (∀ (svcs : List (String × SvcData)) (tot : Value) (st : CompState)
        (s : String) (up tp : Value) (n : String) (data : SvcData) (ip : ℚ)
        (st' : CompState),
      s ≠ "" →
      computeInvoicePrice up tp = .ok ip →
      ip < 0 →
      findMatch svcs (normWs (lowerStr s)) = some (n, data) →
      data.price = 0 →
      processItem svcs tot st (.mk (.str s) up tp) = .ok st' →
      st'.issues = st.issues ∧ st'.all_prices = st.all_prices) := by
  refine ⟨?_, ⟨by decide, by decide⟩, ?_, ?_⟩
  · intro ip cp
    unfold priceMatch
    simp [decide_eq_true_eq, or_assoc]
  · intro svcs tot st s up tp n data st' hs hcp hm hneg hok
    have hpm : priceMatch 0 data.price = true := by
      unfold priceMatch
      simp [hneg]
    rw [processItem_str, if_neg hs] at hok
    simp only [hcp, hm, hpm, if_true] at hok
    constructor
    · intro htot
      simp only [htot, Bool.false_eq_true, and_false, true_and, if_false,
        Except.ok.injEq] at hok
      exact ⟨by rw [← hok], by rw [← hok]⟩
    · intro htot
      simp only [htot, true_and, and_self, if_true, Except.ok.injEq] at hok
      exact ⟨by rw [← hok], by rw [← hok]⟩
  · intro svcs tot st s up tp n data ip st' hs hcp hip hm hz hok
    have hpm : priceMatch ip data.price = true := by
      unfold priceMatch
      simp [hz, hip]
    rw [processItem_str, if_neg hs] at hok
    simp only [hcp, hm, hpm, if_true] at hok
    rw [if_neg (fun h => absurd h.1 hip.ne)] at hok
    simp only [Except.ok.injEq] at hok
    exact ⟨by rw [← hok], by rw [← hok]⟩

unseal Rat.sub Rat.add Rat.mul Rat.inv in
/-- C4 amended witness: the invoice-zero/contract-negative quirk at a
falsy document total leaves issues and the price flag untouched. -/
theorem C4_amended_witness :
    ∃ st' : CompState,
      processItem [("alpha", ⟨"Alpha", (-50 : ℚ)⟩)] .none initState
          (.mk (.str "Alpha") (.num 0) .none) = .ok st' ∧
      st'.issues = initState.issues ∧ st'.all_prices = initState.all_prices := by
  refine ⟨⟨true, true, [], [⟨"Alpha", some (-50), 0, true, Option.none⟩]⟩, by decide, ?_⟩
  have h := (C4_amended.2.2.1 [("alpha", ⟨"Alpha", (-50 : ℚ)⟩)] .none initState
    "Alpha" (.num 0) .none "alpha" ⟨"Alpha", (-50 : ℚ)⟩
    ⟨true, true, [], [⟨"Alpha", some (-50), 0, true, Option.none⟩]⟩
    (by decide) (by decide) (by decide) (by decide) (by decide)).1 (by decide)
  exact h

/-! ### Claim C7 -/

/-- Boolean distribution of `decide` over the word-overlap acceptance
shape. -/
theorem decide_or_and (p q r : Prop) [Decidable p] [Decidable q] [Decidable r] :
    (decide p || (decide q && decide r)) = decide (p ∨ (q ∧ r)) := by
  by_cases hp : p <;> by_cases hq : q <;> by_cases hr : r <;> simp [hp, hq, hr]

unseal Rat.sub Rat.add Rat.mul Rat.inv in
/-- C7: the engine's matcher coincides with the spec's three-tier,
first-hit-wins strategy on every input, and the concrete conjuncts
exercise each tier and the ordering: "consulting" matches
"consulting services" by substring; "web design and hosting" matches
"hosting and web design services" by word overlap; an exact hit beats an
earlier substring hit; a substring hit beats an earlier word-overlap hit;
the first of two word-overlap qualifiers wins; one shared word out of
four invoice words (ratio 1/4) is rejected while two shared words are
accepted. -/
theorem C7_theorem :
    (∀ (svcs : List (String × SvcData)) (snorm : String),
      findMatch svcs snorm = specFindMatch svcs snorm) ∧
    findMatch [("consulting services", ⟨"Consulting Services", 100⟩)] "consulting" =
      some ("consulting services", ⟨"Consulting Services", 100⟩) ∧
    findMatch [("hosting and web design services", ⟨"H", 1⟩)] "web design and hosting" =
      some ("hosting and web design services", ⟨"H", 1⟩) ∧
    findMatch [("consulting services", ⟨"CS", 1⟩), ("consulting", ⟨"C", 2⟩)] "consulting" =
      some ("consulting", ⟨"C", 2⟩) ∧
    findMatch [("web design services", ⟨"WDS", 1⟩), ("abc web consulting xyz", ⟨"AWX", 2⟩)]
        "web consulting" =
      some ("abc web consulting xyz", ⟨"AWX", 2⟩) ∧
    findMatch [("a c", ⟨"AC", 1⟩), ("a d", ⟨"AD", 2⟩)] "a b" = some ("a c", ⟨"AC", 1⟩) ∧
    findMatch [("a x", ⟨"AX", 1⟩)] "a b c d" = Option.none ∧
    findMatch [("a b x", ⟨"ABX", 1⟩)] "a b c d" = some ("a b x", ⟨"ABX", 1⟩) := by
  refine ⟨?_, by decide, by decide, by decide, by decide, by decide, by decide, by decide⟩
  intro svcs snorm
  have h1 : ∀ p : String × SvcData, (p.1 == snorm) = decide (p.1 = snorm) := by
    intro p
    by_cases h : p.1 = snorm <;> simp [h]
  have h2 : ∀ p : String × SvcData,
      (isSubstringOf snorm p.1 || isSubstringOf p.1 snorm) =
        decide (isSubstringOf snorm p.1 = true ∨ isSubstringOf p.1 snorm = true) := by
    intro p
    cases ha : isSubstringOf snorm p.1 <;> cases hb : isSubstringOf p.1 snorm <;> simp [ha, hb]
  have h3 : ∀ p : String × SvcData,
      (decide (interCount (wordsOf snorm) (wordsOf p.1) ≥ 2) ||
        (decide (interCount (wordsOf snorm) (wordsOf p.1) > 0) &&
          decide ((interCount (wordsOf snorm) (wordsOf p.1) : ℚ) /
            ((wordsOf snorm).length : ℚ) ≥ (1 : ℚ) / 2))) =
      decide (2 ≤ interCount (wordsOf snorm) (wordsOf p.1) ∨
        (0 < interCount (wordsOf snorm) (wordsOf p.1) ∧
          (1 : ℚ) / 2 ≤
            (interCount (wordsOf snorm) (wordsOf p.1) : ℚ) /
              ((wordsOf snorm).length : ℚ))) := by
    intro p
    exact decide_or_and _ _ _
  unfold findMatch specFindMatch
  rw [find?_congr_pred _ _ h1 svcs, find?_congr_pred _ _ h2 svcs,
    find?_congr_pred _ _ h3 svcs]

/-! ### Claim C9 -/

/-- A validated item always carries a computed `total_price`. -/
theorem normalizeItem_total_isSome (raw : RawItemPayload) (it : Item)
    (h : normalizeItem raw = .ok it) : it.total_price.isSome = true := by
  unfold normalizeItem at h
  rcases raw with ⟨d, q, up, tp⟩
  rcases d with _ | d0
  · rcases hv : validateTotalPrice ⟨Option.none, q, up, tp⟩ with e | tp0 <;>
      rw [hv] at h
    · exact Except.noConfusion h
    · have h2 := (Except.ok.injEq .. ▸ h : _ = it)
      rw [← h2]
      cases tp0 <;> rfl
  · rcases d0 with _ | s
    · simp at h
    · rcases hv : validateTotalPrice ⟨some (some s), q, up, tp⟩ with e | tp0 <;>
        rw [hv] at h
      · exact Except.noConfusion h
      · have h2 := (Except.ok.injEq .. ▸ h : _ = it)
        rw [← h2]
        cases tp0 <;> rfl

/-- Every item of a validated item list carries a `total_price`. -/
theorem validateItems_total_isSome :
    ∀ (raws : List RawItemPayload) (its : List Item),
      validateItems raws = .ok its →
      ∀ it ∈ its, it.total_price.isSome = true
  | [], its, h => by
    have h2 := (Except.ok.injEq .. ▸ h : [] = its)
    rw [← h2]
    intro it hit
    exact absurd hit (List.not_mem_nil it)
  | raw :: rest, its, h => by
    rw [show validateItems (raw :: rest) =
        (match normalizeItem raw with
         | .error e => .error e
         | .ok it =>
           match validateItems rest with
           | .error e => .error e
           | .ok its2 => .ok (it :: its2)) from rfl] at h
    cases h1 : normalizeItem raw with
    | error e => rw [h1] at h; exact Except.noConfusion h
    | ok it0 =>
      rw [h1] at h
      cases h2 : validateItems rest with
      | error e => rw [h2] at h; exact Except.noConfusion h
      | ok its2 =>
        rw [h2] at h
        have h3 := (Except.ok.injEq .. ▸ h : it0 :: its2 = its)
        rw [← h3]
        intro it hit
        rcases List.mem_cons.mp hit with h4 | h4
        · rw [h4]; exact normalizeItem_total_isSome raw it0 h1
        · exact validateItems_total_isSome rest its2 h2 it h4

/-- Re-validating a dumped item with a present `total_price` is the
identity. -/
theorem normalizeItem_reRawItem (it : Item)
    (h : it.total_price.isSome = true) : normalizeItem (reRawItem it) = .ok it := by
  rcases it with ⟨d, q, up, tp⟩
  rcases tp with _ | t
  · exact absurd h (by simp)
  · rfl

/-- Re-validating a dumped item list whose items all carry a
`total_price` is the identity. -/
theorem validateItems_reRaw :
    ∀ its : List Item, (∀ it ∈ its, it.total_price.isSome = true) →
      validateItems (its.map reRawItem) = .ok its
  | [], _ => rfl
  | it :: rest, h => by
    rw [List.map_cons,
      show validateItems (reRawItem it :: rest.map reRawItem) =
        (match normalizeItem (reRawItem it) with
         | .error e => .error e
         | .ok it2 =>
           match validateItems (rest.map reRawItem) with
           | .error e => .error e
           | .ok its2 => .ok (it2 :: its2)) from rfl,
      normalizeItem_reRawItem it (h it (List.mem_cons_self it rest)),
      validateItems_reRaw rest (fun it2 hit2 => h it2 (List.mem_cons_of_mem it hit2))]

/-- Invariants established by the post root validator: synthesized items
carry a `total_price`; an empty result forces a non-positive total; a zero
result total forces a non-positive item sum. -/
theorem postRoot_spec (total : ℚ) (items : List Item)
    (hall : ∀ it ∈ items, it.total_price.isSome = true) :
    (∀ it ∈ (postRootInvoice total items).2, it.total_price.isSome = true) ∧
    ((postRootInvoice total items).2 = [] → (postRootInvoice total items).1 ≤ 0) ∧
    ((postRootInvoice total items).1 = 0 →
      sumTotalPrices (postRootInvoice total items).2 ≤ 0) := by
  cases items with
  | nil =>
    rw [postRoot_empty]
    by_cases hp : 0 < total
    · rw [if_pos hp]
      refine ⟨?_, ?_, ?_⟩
      · intro it hit
        rw [List.mem_singleton.mp hit]
        rfl
      · intro h; exact absurd h (by simp)
      · intro h; exact absurd h hp.ne'
    · rw [if_neg hp]
      exact ⟨fun it hit => absurd hit (List.not_mem_nil it),
        fun _ => not_lt.mp hp, fun _ => le_refl 0⟩
  | cons it0 rest =>
    have hne : it0 :: rest ≠ [] := by simp
    have hr : postRootInvoice total (it0 :: rest) =
        ((if total = 0 then
            (if sumTotalPrices (it0 :: rest) > 0 then sumTotalPrices (it0 :: rest) else total)
          else total), it0 :: rest) := by
      unfold postRootInvoice
      simp only [hne, ne_eq, not_false_eq_true, if_true, false_and, if_false,
        not_true_eq_false]
    rw [hr]
    refine ⟨hall, fun h => absurd h hne, ?_⟩
    by_cases hz : total = 0
    · rw [if_pos hz]
      by_cases hs : sumTotalPrices (it0 :: rest) > 0
      · rw [if_pos hs]
        intro h; exact absurd h hs.ne'
      · rw [if_neg hs]
        intro _; exact not_lt.mp hs
    · rw [if_neg hz]
      intro h; exact absurd h hz

/-- The post root validator is the identity on any state satisfying its
own output invariants. -/
theorem postRoot_fixpoint (total : ℚ) (items : List Item)
    (hemp : items = [] → total ≤ 0)
    (hzero : total = 0 → sumTotalPrices items ≤ 0) :
    postRootInvoice total items = (total, items) := by
  cases items with
  | nil =>
    rw [postRoot_empty, if_neg (not_lt.mpr (hemp rfl))]
  | cons it0 rest =>
    have hne : it0 :: rest ≠ [] := by simp
    have hr : postRootInvoice total (it0 :: rest) =
        ((if total = 0 then
            (if sumTotalPrices (it0 :: rest) > 0 then sumTotalPrices (it0 :: rest) else total)
          else total), it0 :: rest) := by
      unfold postRootInvoice
      simp only [hne, ne_eq, not_false_eq_true, if_true, false_and, if_false,
        not_true_eq_false]
    rw [hr]
    by_cases hz : total = 0
    · rw [if_pos hz, if_neg (not_lt.mpr (hzero hz)), hz]
    · rw [if_neg hz]

/-- A successfully normalized invoice satisfies the post-validator
invariants: all items carry a `total_price`, an empty item list forces a
non-positive total, and a zero total forces a non-positive item sum. -/
theorem normalizeInvoice_invariant (t : PyDate) (n : String) (raw : RawInvoice)
    (doc : Invoice) (h : normalizeInvoice t n raw = .ok doc) :
    (∀ it ∈ doc.items, it.total_price.isSome = true) ∧
    (doc.items = [] → doc.total ≤ 0) ∧
    (doc.total = 0 → sumTotalPrices doc.items ≤ 0) := by
  unfold normalizeInvoice at h
  simp only [] at h
  cases hv : validateItems
      (((preRootInvoice t n raw).items.getD (some [])).getD []) with
  | error e =>
    rw [hv] at h
    exact Except.noConfusion h
  | ok items0 =>
    rw [hv] at h
    simp only [Except.ok.injEq] at h
    have hall := validateItems_total_isSome _ items0 hv
    have hspec := postRoot_spec (coerceMoney (preRootInvoice t n raw).total) items0 hall
    rw [← h]
    exact hspec

/-- Re-normalizing a dump of a normalized invoice reproduces it exactly,
except that a `None` issue date is replaced by (the parse of) today's
isoformat string. -/
theorem normalize_reRaw (t2 : PyDate) (n2 : String) (doc : Invoice)
    (hall : ∀ it ∈ doc.items, it.total_price.isSome = true)
    (hemp : doc.items = [] → doc.total ≤ 0)
    (hzero : doc.total = 0 → sumTotalPrices doc.items ≤ 0) :
    normalizeInvoice t2 n2 (reRawInvoice doc) =
      .ok { doc with issue_date :=
        match doc.issue_date with
        | some d => some d
        | Option.none => parseDateStr (isoformat t2) } := by
  obtain ⟨inum, sup, idate, ddate, items, sub, tax, tot, rtext⟩ := doc
  simp only at hall hemp hzero
  rcases idate with _ | d1 <;> rcases ddate with _ | d2 <;> rcases rtext with _ | rt <;>
    simp only [normalizeInvoice, reRawInvoice, preRootInvoice, Option.getD_some,
      validateItems_reRaw items hall, postRoot_fixpoint tot items hemp hzero,
      coerceMoney, parse_date]

/-- C9 counterexample: a raw payload whose `issue_date` is the unparseable
string "garbage" normalizes to a document with `issue_date = None`;
re-normalizing that document (on the same day) produces a DIFFERENT
document, with `issue_date` set to today — normalization is not
idempotent. -/
theorem C9_counterexample :
    normalizeInvoice ⟨2024, 1, 2⟩ "ts"
        ⟨some (some "N1"), some (some "S"), some (.dstr "garbage"), Option.none,
          some (some []), Option.none, Option.none, some (.num 0), Option.none⟩ =
      .ok ⟨"N1", "S", Option.none, Option.none, [], 0, 0, 0, some ""⟩ ∧
    normalizeInvoice ⟨2024, 1, 2⟩ "ts"
        (reRawInvoice ⟨"N1", "S", Option.none, Option.none, [], 0, 0, 0, some ""⟩) =
      .ok ⟨"N1", "S", some ⟨2024, 1, 2⟩, Option.none, [], 0, 0, 0, some ""⟩ ∧
    (⟨"N1", "S", Option.none, Option.none, [], 0, 0, 0, some ""⟩ : Invoice) ≠
      ⟨"N1", "S", some ⟨2024, 1, 2⟩, Option.none, [], 0, 0, 0, some ""⟩ := by
  exact ⟨by decide, by decide, by decide⟩

/-- C9 amended: normalization is idempotent on every field except
`issue_date` — re-normalizing a normalized document reproduces it exactly
when its `issue_date` is non-`None`, and otherwise reproduces it with
`issue_date` replaced by (the parse of) the re-normalization day's
isoformat string. -/
theorem C9_amended (t1 : PyDate) (n1 : String) (t2 : PyDate) (n2 : String)
    (raw : RawInvoice) (doc : Invoice)
    (h : normalizeInvoice t1 n1 raw = .ok doc) :
    normalizeInvoice t2 n2 (reRawInvoice doc) =
      .ok { doc with issue_date :=
        match doc.issue_date with
        | some d => some d
        | Option.none => parseDateStr (isoformat t2) } ∧
    (doc.issue_date.isSome = true →
      normalizeInvoice t2 n2 (reRawInvoice doc) = .ok doc) := by
  obtain ⟨hall, hemp, hzero⟩ := normalizeInvoice_invariant t1 n1 raw doc h
  refine ⟨normalize_reRaw t2 n2 doc hall hemp hzero, ?_⟩
  intro hs
  obtain ⟨d0, hd0⟩ := Option.isSome_iff_exists.mp hs
  have h3 : ({ doc with issue_date := some d0 } : Invoice) = doc := by rw [← hd0]
  rw [normalize_reRaw t2 n2 doc hall hemp hzero, hd0]
  exact congrArg Except.ok h3

/-- C9 amended witness: a normalized document with a present issue date
re-normalizes, on a different day and timestamp, to itself. -/
theorem C9_amended_witness :
    normalizeInvoice ⟨2025, 3, 4⟩ "zz"
        (reRawInvoice ⟨"N1", "S", some ⟨2024, 1, 2⟩, Option.none,
          [⟨"Unknown Item", 1, 500, some 500⟩], 0, 0, 500, some ""⟩) =
      .ok ⟨"N1", "S", some ⟨2024, 1, 2⟩, Option.none,
        [⟨"Unknown Item", 1, 500, some 500⟩], 0, 0, 500, some ""⟩ :=
  (C9_amended ⟨2024, 1, 2⟩ "ts" ⟨2025, 3, 4⟩ "zz"
    ⟨some (some "N1"), some (some "S"), some (.ddate ⟨2024, 1, 2⟩), Option.none,
      some (some []), Option.none, Option.none, some (.num 500), Option.none⟩
    ⟨"N1", "S", some ⟨2024, 1, 2⟩, Option.none,
      [⟨"Unknown Item", 1, 500, some 500⟩], 0, 0, 500, some ""⟩
    (by decide)).2 (by decide)
